import Mathlib

/-!
Shallow embedding of the chat-app server core (socket handlers in
`src/server/socket/handlers.ts`, persistence facade and moderation service in
`src/server/services/supabase.service.ts`, later revisions where two
revisions are present), together with theorems settling the frozen claims
about it.  Machine-relevant effects (database writes, socket emits, external
API calls) are made explicit: the database is a `Store` value threaded
through the operations, socket emissions are collected in a list of `Emit`
values, and each fallible external call is represented by an input that
says whether the call succeeded and with which payload.
-/

namespace ChatApp

/-- Result row returned by the external moderation classifier
(`moderation.results[0]` in `ModerationService.moderateMessage`): the
flagged bit of the classifier itself, the boolean categories and the
per-category scores. -/
structure ClassifierResult where
  flagged : Bool
  categories : List (String × Bool)
  categoryScores : List (String × ℚ)
deriving Repr, DecidableEq

/-- The `ModerationResult` interface of `moderation.service.ts` (later
revision): verdict bits plus the raw categories and scores; `apiError` is
the internal degraded-moderation marker (absent on the success path of the
source, which we model as `false`). -/
structure ModerationResult where
  flagged : Bool
  blocked : Bool
  categories : List (String × Bool)
  categoryScores : List (String × ℚ)
  apiError : Bool
deriving Repr, DecidableEq

/-- `private blockThreshold = 0.8` in `ModerationService`. -/
def blockThreshold : ℚ := 8/10

/-- `private flagThreshold = 0.5` in `ModerationService`. -/
def flagThreshold : ℚ := 5/10

/-- `private maxFailures = 5` in `ModerationService` (later revision). -/
def maxFailures : Nat := 5

/-- Mutable state of the `ModerationService` instance (later revision):
the consecutive API failure counter. -/
structure ModState where
  apiFailureCount : Nat
deriving Repr, DecidableEq

/-- The result the service returns on every path that skips or fails the
external call: allow, empty scores, `apiError: true`. -/
def apiErrorResult : ModerationResult :=
  { flagged := false, blocked := false, categories := [], categoryScores := [],
    apiError := true }

/-- `ModerationService.moderateMessage` (later revision).  `aiEnabled`
models the `AI_ENABLED` configuration constant, `openaiEnabled` the
`openai` client being configured; `api = none` models the external call
throwing, `api = some r` models it returning result row `r`. -/
def moderateMessage (aiEnabled openaiEnabled : Bool) (st : ModState)
    (api : Option ClassifierResult) : ModerationResult × ModState :=
  if !aiEnabled then (apiErrorResult, st)
  else if maxFailures ≤ st.apiFailureCount then (apiErrorResult, st)
  else if !openaiEnabled then (apiErrorResult, st)
  else
    match api with
    | some result =>
        let shouldBlock :=
          result.categoryScores.any fun p => decide (blockThreshold ≤ p.2)
        let shouldFlag :=
          result.categoryScores.any fun p => decide (flagThreshold ≤ p.2)
        ({ flagged := result.flagged || shouldFlag
           blocked := shouldBlock
           categories := result.categories
           categoryScores := result.categoryScores
           apiError := false },
         { apiFailureCount := 0 })
    | none =>
        (apiErrorResult, { apiFailureCount := st.apiFailureCount + 1 })

/-- Hugging Face fallback block at the end of
`ModerationService.generateChatSummary` (later revision): `hfCall = none`
models the call throwing (counter incremented), `some none` a falsy
summary (no reset), `some (some s)` a successful summary (counter reset). -/
def hfFallback (st : ModState) (hfCall : Option (Option String)) :
    Option String × ModState :=
  match hfCall with
  | some (some s) => (some s, { apiFailureCount := 0 })
  | some none => (none, st)
  | none => (none, { apiFailureCount := st.apiFailureCount + 1 })

/-- `ModerationService.generateChatSummary` (later revision), with the
external calls as explicit inputs: `openaiCall = none` models the OpenAI
call throwing, `some s` a successful completion already defaulted to the
fallback text. -/
def generateChatSummary (aiEnabled openaiEnabled hfEnabled : Bool)
    (st : ModState) (openaiCall : Option String)
    (hfCall : Option (Option String)) : Option String × ModState :=
  if !aiEnabled then (none, st)
  else if maxFailures ≤ st.apiFailureCount then (none, st)
  else if openaiEnabled then
    match openaiCall with
    | some s => (some s, { apiFailureCount := 0 })
    | none =>
        let st1 : ModState := { apiFailureCount := st.apiFailureCount + 1 }
        if !hfEnabled then (none, st1) else hfFallback st1 hfCall
  else if hfEnabled then hfFallback st hfCall
  else (none, st)

/-- One call into the `ModerationService` instance, abstracting over the
outcome of the external requests it may make. -/
inductive ApiCall where
  | moderate (api : Option ClassifierResult)
  | summary (openaiCall : Option String) (hfCall : Option (Option String))

/-- State transition of the `ModerationService` failure counter caused by
one call. -/
def stepState (aiEnabled openaiEnabled hfEnabled : Bool) (st : ModState) :
    ApiCall → ModState
  | .moderate api => (moderateMessage aiEnabled openaiEnabled st api).2
  | .summary oc hc =>
      (generateChatSummary aiEnabled openaiEnabled hfEnabled st oc hc).2

/-- A persisted message row (`messages` table): id, owning chat, sender,
content, moderation bits, and the delivered-to / read-by sets. -/
structure Message where
  id : Nat
  chatId : Nat
  senderId : Nat
  content : String
  isFlagged : Bool
  isBlocked : Bool
  readBy : List Nat
  deliveredTo : List Nat
deriving Repr, DecidableEq

/-- A chat row (`chats` table). -/
structure Chat where
  id : Nat
  isGroup : Bool
  createdBy : Nat
deriving Repr, DecidableEq

/-- A moderation log row (`moderation_logs` table). -/
structure ModerationLog where
  messageId : Nat
  flagged : Bool
  categories : List (String × Bool)
  categoryScores : List (String × ℚ)
deriving Repr, DecidableEq

/-- The persistent store behind `SupabaseService`: chats, chat membership
pairs `(chatId, userId)`, messages and moderation logs, with `nextId` the
next fresh row identifier. -/
structure Store where
  chats : List Chat
  chatMembers : List (Nat × Nat)
  messages : List Message
  moderationLogs : List ModerationLog
  nextId : Nat
deriving Repr, DecidableEq

/-- `SupabaseService.createMessage`: insert a message row (fresh id, empty
status sets). -/
def createMessage (st : Store) (chatId senderId : Nat) (content : String)
    (isFlagged isBlocked : Bool) : Store × Message :=
  let msg : Message :=
    { id := st.nextId, chatId := chatId, senderId := senderId,
      content := content, isFlagged := isFlagged, isBlocked := isBlocked,
      readBy := [], deliveredTo := [] }
  ({ st with messages := st.messages ++ [msg], nextId := st.nextId + 1 }, msg)

/-- The message row `SupabaseService.createMessage` inserts. -/
def freshMessage (st : Store) (chatId senderId : Nat) (content : String)
    (isFlagged isBlocked : Bool) : Message :=
  (createMessage st chatId senderId content isFlagged isBlocked).2

/-- `SupabaseService.createModerationLog`: insert a moderation log row. -/
def createModerationLog (st : Store) (messageId : Nat) (flagged : Bool)
    (categories : List (String × Bool))
    (categoryScores : List (String × ℚ)) : Store :=
  { st with moderationLogs :=
      st.moderationLogs ++ [⟨messageId, flagged, categories, categoryScores⟩] }

/-- The push-if-absent idiom of `updateMessageReadBy`:
`if (!readBy.includes(userId)) readBy.push(userId)`. -/
def addIfAbsent (l : List Nat) (x : Nat) : List Nat :=
  if x ∈ l then l else l ++ [x]

/-- Per-row effect of `SupabaseService.updateMessageReadBy` on the row with
the given id. -/
def updOne (messageId userId : Nat) (m : Message) : Message :=
  if m.id = messageId then { m with readBy := addIfAbsent m.readBy userId }
  else m

/-- `SupabaseService.updateMessageReadBy`: fetch the read-by set of the
message, append the user id if absent, write it back. -/
def updateMessageReadBy (st : Store) (messageId userId : Nat) : Store :=
  { st with messages := st.messages.map (updOne messageId userId) }

/-- Per-row effect of `markMessageDelivered` on the row with the given id. -/
def updDelivered (messageId userId : Nat) (m : Message) : Message :=
  if m.id = messageId then
    { m with deliveredTo := addIfAbsent m.deliveredTo userId }
  else m

/-- Modelled from the spec: `SupabaseService.markMessageDelivered` is
called by the `message:delivered` handler but its implementation is not
among the source files; per the spec it adds the user id to the message
delivered-to set idempotently, mirroring `updateMessageReadBy`. -/
def markMessageDelivered (st : Store) (messageId userId : Nat) : Store :=
  { st with messages := st.messages.map (updDelivered messageId userId) }

/-- `SupabaseService.createChat`: insert a chat row with a fresh id. -/
def createChat (st : Store) (isGroup : Bool) (createdBy : Nat) :
    Store × Chat :=
  let c : Chat := { id := st.nextId, isGroup := isGroup, createdBy := createdBy }
  ({ st with chats := st.chats ++ [c], nextId := st.nextId + 1 }, c)

/-- `SupabaseService.addChatMember`: insert a `(chatId, userId)` membership
row. -/
def addChatMember (st : Store) (chatId userId : Nat) : Store :=
  { st with chatMembers := st.chatMembers ++ [(chatId, userId)] }

/-- Chat ids of the membership rows of one user, in row order (the
`chat_members ... eq(user_id, ...)` query). -/
def chatIdsOf (st : Store) (userId : Nat) : List Nat :=
  (st.chatMembers.filter fun p => p.2 == userId).map Prod.fst

/-- Member user ids of one chat, in row order (the
`chat_members ... eq(chat_id, ...)` query). -/
def membersOf (st : Store) (chatId : Nat) : List Nat :=
  (st.chatMembers.filter fun p => p.1 == chatId).map Prod.snd

/-- Lookup of a chat row by id. -/
def findChat (st : Store) (chatId : Nat) : Option Chat :=
  st.chats.find? fun c => c.id == chatId

/-- Loop body of `SupabaseService.getOrCreateDirectChat`: the chat is a
non-group chat whose member list contains the other user and has exactly
two entries. -/
def isDirectWith (st : Store) (otherId chatId : Nat) : Bool :=
  match findChat st chatId with
  | some c =>
      !c.isGroup && (membersOf st chatId).contains otherId
        && (membersOf st chatId).length == 2
  | none => false

/-- `SupabaseService.getOrCreateDirectChat`: scan the chats of `user1Id`
for an existing direct chat with `user2Id` and reuse it, else create a new
chat and the two membership rows.  Returns the chat identifier. -/
def getOrCreateDirectChat (st : Store) (user1Id user2Id : Nat) :
    Store × Nat :=
  match (chatIdsOf st user1Id).find? (isDirectWith st user2Id) with
  | some cid => (st, cid)
  | none =>
      let r := createChat st false user1Id
      let st1 := addChatMember r.1 r.2.id user1Id
      let st2 := addChatMember st1 r.2.id user2Id
      (st2, r.2.id)

/-- Character-list version of a starts-with test, used by `hasSub`. -/
def startsWithL : List Char → List Char → Bool
  | [], _ => true
  | _ :: _, [] => false
  | a :: pat, b :: rest => a == b && startsWithL pat rest

/-- Substring test on character lists: the `ilike %query%` match of
`SupabaseService.searchMessages`. -/
def hasSub (pat : List Char) : List Char → Bool
  | [] => pat.isEmpty
  | c :: rest => startsWithL pat (c :: rest) || hasSub pat rest

/-- Case-insensitive substring match of the search query against message
content. -/
def contentMatches (content q : String) : Bool :=
  hasSub q.toLower.toList content.toLower.toList

/-- `SupabaseService.searchMessages`: collect the chats of the user; when
the user belongs to no chats return `[]` before the message-store query.
The second component records whether the message-store query was issued. -/
def searchMessages (st : Store) (userId : Nat) (q : String) :
    List Message × Bool :=
  let chatIds := chatIdsOf st userId
  if chatIds.isEmpty then ([], false)
  else
    (((st.messages.filter fun m =>
        chatIds.contains m.chatId && contentMatches m.content q).reverse).take 50,
     true)

/-- Outbound socket events relevant to the claims. -/
inductive Event where
  | messageBlocked (tempId : Nat) (reason : String)
  | messageNew (msg : Message) (senderId tempId : Nat)
  | messageError (tempId : Nat) (error : String)
  | messageDelivered (messageId userId : Nat)
  | messagesSeen (messageIds : List Nat) (userId : Nat)
deriving Repr, DecidableEq

/-- An emission together with its audience: `toSender` is `socket.emit`
(the sender only), `toRoomAll` is `io.to(room).emit` (every connection in
the room, sender included), `toRoomOthers` is `socket.to(room).emit`
(every room member except the sender). -/
inductive Emit where
  | toSender (ev : Event)
  | toRoomAll (chatId : Nat) (ev : Event)
  | toRoomOthers (chatId : Nat) (ev : Event)
deriving Repr, DecidableEq

/-- Outcomes of the fallible persistence calls inside the `message:send`
handler, in call order: `createMessage`, `createModerationLog`,
`getUserById`.  A `false` models the corresponding call throwing. -/
structure SendOutcomes where
  createMessageOk : Bool
  createLogOk : Bool
  getSenderOk : Bool
deriving Repr, DecidableEq

/-- The reason string of the `message:blocked` notice. -/
def blockedReason : String := "Message contains inappropriate content"

/-- The error string of the `message:error` event. -/
def sendErrorMsg : String := "Failed to send message"

/-- The `message:send` handler of `handlers.ts`, after the moderation
verdict `mres` has been obtained: on a block verdict reply only to the
sender and stop; otherwise persist the message, persist the moderation
log, load the sender row and broadcast `message:new` to the whole room.
A throw anywhere lands in the catch, which emits `message:error` to the
sender; writes made before the throw are kept (no rollback). -/
def handleMessageSend (st : Store) (userId chatId tempId : Nat)
    (content : String) (mres : ModerationResult) (outc : SendOutcomes) :
    Store × List Emit :=
  if mres.blocked then
    (st, [Emit.toSender (Event.messageBlocked tempId blockedReason)])
  else if !outc.createMessageOk then
    (st, [Emit.toSender (Event.messageError tempId sendErrorMsg)])
  else
    let r := createMessage st chatId userId content mres.flagged mres.blocked
    if !outc.createLogOk then
      (r.1, [Emit.toSender (Event.messageError tempId sendErrorMsg)])
    else
      let st2 := createModerationLog r.1 r.2.id mres.flagged mres.categories
        mres.categoryScores
      if !outc.getSenderOk then
        (st2, [Emit.toSender (Event.messageError tempId sendErrorMsg)])
      else
        (st2, [Emit.toRoomAll chatId (Event.messageNew r.2 userId tempId)])

/-- The `message:delivered` handler of `handlers.ts`: persist via
`markMessageDelivered`, then notify the other room members; on a throw the
catch only logs (`persistOk = false` models the persistence call
throwing). -/
def handleMessageDelivered (st : Store) (userId messageId chatId : Nat)
    (persistOk : Bool) : Store × List Emit :=
  if persistOk then
    (markMessageDelivered st messageId userId,
     [Emit.toRoomOthers chatId (Event.messageDelivered messageId userId)])
  else (st, [])

/-- The awaited loop of the `message:seen` handler: ids are processed in
order, each paired with whether its `updateMessageReadBy` call succeeds; a
throw stops the loop (the exception propagates to the handler catch),
keeping the updates already made. -/
def processSeen (userId : Nat) : Store → List (Nat × Bool) → Store × Bool
  | st, [] => (st, true)
  | st, p :: rest =>
      if p.2 then processSeen userId (updateMessageReadBy st p.1 userId) rest
      else (st, false)

/-- The `message:seen` handler of `handlers.ts`: run the read-by loop, then
update the last-read timestamp (`lastReadOk` models that call, which only
touches a timestamp) and broadcast one aggregate `messages:seen` event to
the other room members; any throw lands in the catch, which only logs. -/
def handleMessageSeen (st : Store) (userId chatId : Nat)
    (ids : List (Nat × Bool)) (lastReadOk : Bool) : Store × List Emit :=
  let r := processSeen userId st ids
  if r.2 && lastReadOk then
    (r.1, [Emit.toRoomOthers chatId
      (Event.messagesSeen (ids.map Prod.fst) userId)])
  else (r.1, [])

/-! Theorems settling the claims. -/

/-- C1: for every send-message event whose moderation verdict is block,
the handler replies to the sender only with a `message:blocked` event
carrying the tempId, persists nothing (the store is unchanged) and emits
no `message:new` to any connection (the emission list is exactly the one
blocked notice to the sender). -/
theorem blocked_message_dropped (st : Store) (userId chatId tempId : Nat)
    (content : String) (mres : ModerationResult) (outc : SendOutcomes)
    (hb : mres.blocked = true) :
    handleMessageSend st userId chatId tempId content mres outc
      = (st, [Emit.toSender (Event.messageBlocked tempId blockedReason)]) := by
  simp [handleMessageSend, hb]

/-- Witness for C1 at a concrete blocked verdict. -/
theorem blocked_message_dropped_witness :
    handleMessageSend ⟨[], [], [], [], 0⟩ 1 2 3 "hi"
        ⟨false, true, [], [], false⟩ ⟨true, true, true⟩
      = (⟨[], [], [], [], 0⟩,
         [Emit.toSender (Event.messageBlocked 3 blockedReason)]) :=
  blocked_message_dropped ⟨[], [], [], [], 0⟩ 1 2 3 "hi"
    ⟨false, true, [], [], false⟩ ⟨true, true, true⟩ rfl

/-- Classifier output whose own flagged bit is set while every category
score is below the flag threshold. -/
def cexClassifier : ClassifierResult :=
  { flagged := true, categories := [], categoryScores := [("x", 0)] }

/-- Counterexample to C2: every category score of `cexClassifier` is below
the flag threshold, so the claim says the verdict is allow (not flagged,
not blocked), but `moderateMessage` returns `flagged = true` because the
source also ORs in the flagged bit of the classifier itself
(`result.flagged || shouldFlag`). -/
theorem verdict_thresholds_cex :
    (cexClassifier.categoryScores.all fun p => decide (p.2 < flagThreshold))
        = true
    ∧ (moderateMessage true true ⟨0⟩ (some cexClassifier)).1.blocked = false
    ∧ (moderateMessage true true ⟨0⟩ (some cexClassifier)).1.flagged = true := by
  refine ⟨?_, ?_, ?_⟩ <;>
    simp [cexClassifier, moderateMessage, maxFailures, flagThreshold,
      blockThreshold]

/-- C2 as amended: with the service enabled and below the failure limit,
the verdict is block exactly when some category score meets the block
threshold 0.8, and flagged exactly when the classifier itself reports
flagged or some category score meets the flag threshold 0.5; hence the
result is allow whenever no score meets either threshold and the
classifier flagged bit is false. -/
theorem verdict_thresholds (st : ModState)
    (hc : st.apiFailureCount < maxFailures) (cr : ClassifierResult) :
    (moderateMessage true true st (some cr)).1.blocked
        = (cr.categoryScores.any fun p => decide (blockThreshold ≤ p.2))
    ∧ (moderateMessage true true st (some cr)).1.flagged
        = (cr.flagged
            || cr.categoryScores.any fun p => decide (flagThreshold ≤ p.2)) := by
  have h2 : ¬ (maxFailures ≤ st.apiFailureCount) := Nat.not_le.mpr hc
  simp [moderateMessage, h2]

/-- Classifier output used by the C2 witness. -/
def crW : ClassifierResult := ⟨false, [], [("h", (9 : ℚ)/10)]⟩

/-- Witness for the amended C2 at a concrete classifier output. -/
theorem verdict_thresholds_witness :
    (moderateMessage true true ⟨0⟩ (some crW)).1.blocked
        = (crW.categoryScores.any fun p => decide (blockThreshold ≤ p.2))
    ∧ (moderateMessage true true ⟨0⟩ (some crW)).1.flagged
        = (crW.flagged
            || crW.categoryScores.any fun p => decide (flagThreshold ≤ p.2)) :=
  verdict_thresholds ⟨0⟩ (by decide) crW

/-- C3: when the external moderation call throws (with the service enabled
and below the failure limit), the gate returns allow with empty scores and
`apiError = true`, and the message is still persisted with
`isFlagged = false` and broadcast as `message:new` to the whole room. -/
theorem moderation_failure_fails_open (stM : ModState) (st : Store)
    (userId chatId tempId : Nat) (content : String)
    (hc : stM.apiFailureCount < maxFailures) :
    (moderateMessage true true stM none).1 = apiErrorResult
    ∧ handleMessageSend st userId chatId tempId content
        (moderateMessage true true stM none).1 ⟨true, true, true⟩
      = (createModerationLog
           (createMessage st chatId userId content false false).1
           st.nextId false [] [],
         [Emit.toRoomAll chatId
           (Event.messageNew (freshMessage st chatId userId content false false)
             userId tempId)])
    ∧ (freshMessage st chatId userId content false false).isFlagged = false
    ∧ freshMessage st chatId userId content false false
        ∈ (handleMessageSend st userId chatId tempId content
            (moderateMessage true true stM none).1
            ⟨true, true, true⟩).1.messages := by
  have h2 : ¬ (maxFailures ≤ stM.apiFailureCount) := Nat.not_le.mpr hc
  have hm : (moderateMessage true true stM none).1 = apiErrorResult := by
    simp [moderateMessage, h2]
  refine ⟨hm, ?_, rfl, ?_⟩
  · rw [hm]; rfl
  · rw [hm]
    simp [handleMessageSend, apiErrorResult, createModerationLog,
      createMessage, freshMessage]

/-- Witness for C3 at a concrete store and fresh moderation state. -/
theorem moderation_failure_fails_open_witness :
    (moderateMessage true true ⟨0⟩ none).1 = apiErrorResult
    ∧ handleMessageSend ⟨[], [], [], [], 0⟩ 1 2 3 "hi"
        (moderateMessage true true ⟨0⟩ none).1 ⟨true, true, true⟩
      = (createModerationLog
           (createMessage ⟨[], [], [], [], 0⟩ 2 1 "hi" false false).1
           (⟨[], [], [], [], 0⟩ : Store).nextId false [] [],
         [Emit.toRoomAll 2
           (Event.messageNew
             (freshMessage ⟨[], [], [], [], 0⟩ 2 1 "hi" false false) 1 3)])
    ∧ (freshMessage ⟨[], [], [], [], 0⟩ 2 1 "hi" false false).isFlagged = false
    ∧ freshMessage ⟨[], [], [], [], 0⟩ 2 1 "hi" false false
        ∈ (handleMessageSend ⟨[], [], [], [], 0⟩ 1 2 3 "hi"
            (moderateMessage true true ⟨0⟩ none).1
            ⟨true, true, true⟩).1.messages :=
  moderation_failure_fails_open ⟨0⟩ ⟨[], [], [], [], 0⟩ 1 2 3 "hi" (by decide)

/-- The empty store. -/
def st0 : Store := ⟨[], [], [], [], 0⟩

/-- An allow verdict with no categories. -/
def allowResult : ModerationResult :=
  { flagged := false, blocked := false, categories := [], categoryScores := [],
    apiError := false }

/-- Counterexample to C4: with an allow verdict, a successful message
insert and a failing moderation-log write, the handler emits only
`message:error` to the sender — no `message:new` is broadcast — although
the message row has been persisted (it is in the resulting store). -/
theorem modlog_failure_blocks_delivery_cex :
    handleMessageSend st0 1 2 3 "hi" allowResult ⟨true, false, true⟩
      = ({ st0 with
            messages := [⟨0, 2, 1, "hi", false, false, [], []⟩],
            nextId := 1 },
         [Emit.toSender (Event.messageError 3 sendErrorMsg)]) := by
  rfl

/-- C4 as amended: for every send-message event with a non-block verdict
whose message row has been persisted, a failure of the moderation-log
write aborts delivery: the handler emits `message:error` (with the tempId)
to the sender and broadcasts no `message:new`, while the persisted message
row remains in the store. -/
theorem modlog_failure_blocks_delivery (st : Store)
    (userId chatId tempId : Nat) (content : String)
    (mres : ModerationResult) (g : Bool) (hb : mres.blocked = false) :
    handleMessageSend st userId chatId tempId content mres ⟨true, false, g⟩
      = ((createMessage st chatId userId content mres.flagged mres.blocked).1,
         [Emit.toSender (Event.messageError tempId sendErrorMsg)])
    ∧ freshMessage st chatId userId content mres.flagged mres.blocked
        ∈ (handleMessageSend st userId chatId tempId content mres
            ⟨true, false, g⟩).1.messages := by
  have h1 : handleMessageSend st userId chatId tempId content mres
      ⟨true, false, g⟩
      = ((createMessage st chatId userId content mres.flagged mres.blocked).1,
         [Emit.toSender (Event.messageError tempId sendErrorMsg)]) := by
    simp [handleMessageSend, hb]
  refine ⟨h1, ?_⟩
  rw [h1]
  simp [createMessage, freshMessage]

/-- Witness for the amended C4 at a concrete allow verdict. -/
theorem modlog_failure_blocks_delivery_witness :
    handleMessageSend st0 4 5 6 "yo" allowResult ⟨true, false, true⟩
      = ((createMessage st0 5 4 "yo" allowResult.flagged
            allowResult.blocked).1,
         [Emit.toSender (Event.messageError 6 sendErrorMsg)])
    ∧ freshMessage st0 5 4 "yo" allowResult.flagged allowResult.blocked
        ∈ (handleMessageSend st0 4 5 6 "yo" allowResult
            ⟨true, false, true⟩).1.messages :=
  modlog_failure_blocks_delivery st0 4 5 6 "yo" allowResult true rfl

/-- Membership after the push-if-absent idiom. -/
theorem mem_addIfAbsent (l : List Nat) (x : Nat) : x ∈ addIfAbsent l x := by
  unfold addIfAbsent
  by_cases h : x ∈ l <;> simp [h]

/-- The push-if-absent idiom is idempotent. -/
theorem addIfAbsent_idem (l : List Nat) (x : Nat) :
    addIfAbsent (addIfAbsent l x) x = addIfAbsent l x := by
  rw [addIfAbsent, if_pos (mem_addIfAbsent l x)]

/-- The push-if-absent idiom only grows the list. -/
theorem subset_addIfAbsent (l : List Nat) (x : Nat) : l ⊆ addIfAbsent l x := by
  unfold addIfAbsent
  by_cases h : x ∈ l <;> simp [h, List.subset_append_left]

/-- The push-if-absent idiom preserves freedom from duplicates. -/
theorem nodup_addIfAbsent (l : List Nat) (x : Nat) (h : l.Nodup) :
    (addIfAbsent l x).Nodup := by
  unfold addIfAbsent
  by_cases hx : x ∈ l <;> simp [hx, h, List.nodup_append]

/-- Per-row delivered-to update is idempotent. -/
theorem updDelivered_idem (i u : Nat) (m : Message) :
    updDelivered i u (updDelivered i u m) = updDelivered i u m := by
  unfold updDelivered
  by_cases h : m.id = i <;> simp [h, addIfAbsent_idem]

/-- Per-row read-by update is idempotent. -/
theorem updOne_idem (i u : Nat) (m : Message) :
    updOne i u (updOne i u m) = updOne i u m := by
  unfold updOne
  by_cases h : m.id = i <;> simp [h, addIfAbsent_idem]

/-- `markMessageDelivered` is idempotent on the store. -/
theorem markMessageDelivered_idem (st : Store) (i u : Nat) :
    markMessageDelivered (markMessageDelivered st i u) i u
      = markMessageDelivered st i u := by
  have hmap : ∀ l : List Message,
      (l.map (updDelivered i u)).map (updDelivered i u)
        = l.map (updDelivered i u) := by
    intro l
    induction l with
    | nil => rfl
    | cons a l ih => simp [ih, updDelivered_idem]
  simp [markMessageDelivered, hmap]

/-- C5: on a successful `message:delivered` event the handler broadcasts
exactly one `message:delivered{messageId,userId}` event to the other
members of the chat room, after persisting the user id into the message
delivered-to set: every row with the given id contains the user id
afterwards, and the persistence step is idempotent. -/
theorem delivered_persist_and_broadcast (st : Store)
    (userId messageId chatId : Nat) :
    (handleMessageDelivered st userId messageId chatId true).2
      = [Emit.toRoomOthers chatId (Event.messageDelivered messageId userId)]
    ∧ (∀ m ∈ (handleMessageDelivered st userId messageId chatId true).1.messages,
        m.id = messageId → userId ∈ m.deliveredTo)
    ∧ (handleMessageDelivered
        (handleMessageDelivered st userId messageId chatId true).1
        userId messageId chatId true).1
      = (handleMessageDelivered st userId messageId chatId true).1 := by
  refine ⟨rfl, ?_, ?_⟩
  · intro m hm hid
    simp only [handleMessageDelivered, if_pos, markMessageDelivered,
      List.mem_map] at hm
    rcases hm with ⟨m0, hm0, rfl⟩
    by_cases h : m0.id = messageId
    · simp [updDelivered, h, mem_addIfAbsent]
    · simp [updDelivered, h] at hid
  · simp [handleMessageDelivered, markMessageDelivered_idem]

/-- Witness for C5 at a concrete store. -/
theorem delivered_persist_and_broadcast_witness :
    (handleMessageDelivered st0 9 1 7 true).2
      = [Emit.toRoomOthers 7 (Event.messageDelivered 1 9)]
    ∧ (∀ m ∈ (handleMessageDelivered st0 9 1 7 true).1.messages,
        m.id = 1 → (9 : Nat) ∈ m.deliveredTo)
    ∧ (handleMessageDelivered (handleMessageDelivered st0 9 1 7 true).1
        9 1 7 true).1
      = (handleMessageDelivered st0 9 1 7 true).1 :=
  delivered_persist_and_broadcast st0 9 1 7

/-- A store with two messages, used for the bulk mark-seen claims. -/
def stSeen : Store :=
  ⟨[], [],
   [⟨1, 7, 0, "a", false, false, [], []⟩,
    ⟨2, 7, 0, "b", false, false, [], []⟩], [], 3⟩

/-- Counterexample to C6: with ids `[1, 2]` where persisting id 1 throws
and persisting id 2 would succeed, the handler leaves the store untouched
and emits nothing — id 2 is not processed — although processing id 2 would
have changed the store (second conjunct shows the update it skipped). -/
theorem seen_abandons_cex :
    handleMessageSeen stSeen 9 7 [(1, false), (2, true)] true = (stSeen, [])
    ∧ updateMessageReadBy stSeen 2 9
      = { stSeen with
          messages :=
            [⟨1, 7, 0, "a", false, false, [], []⟩,
             ⟨2, 7, 0, "b", false, false, [9], []⟩] } :=
  ⟨rfl, rfl⟩

/-- When some id in the bulk list fails, the loop stops at the first
failure: the resulting store reflects only the longest successful prefix
and the loop reports failure. -/
theorem processSeen_fail (u : Nat) (ids : List (Nat × Bool)) (st : Store)
    (hfail : ids.any (fun p => !p.2) = true) :
    processSeen u st ids
      = (((ids.takeWhile fun p => p.2).map Prod.fst).foldl
           (fun s i => updateMessageReadBy s i u) st, false) := by
  induction ids generalizing st with
  | nil => simp at hfail
  | cons p rest ih =>
      by_cases hp : p.2
      · have hrest : rest.any (fun q => !q.2) = true := by
          simpa [hp] using hfail
        simp [processSeen, hp, List.takeWhile_cons, ih _ hrest]
      · simp [processSeen, hp, List.takeWhile_cons]

/-- C6 as amended: if persisting read-by for one id in the bulk mark-seen
list fails, the handler abandons the remaining ids (only the ids before
the first failure are persisted) and emits no `messages:seen` broadcast. -/
theorem seen_abandons_rest (st : Store) (userId chatId : Nat)
    (ids : List (Nat × Bool)) (lastReadOk : Bool)
    (hfail : ids.any (fun p => !p.2) = true) :
    handleMessageSeen st userId chatId ids lastReadOk
      = (((ids.takeWhile fun p => p.2).map Prod.fst).foldl
           (fun s i => updateMessageReadBy s i userId) st, []) := by
  simp [handleMessageSeen, processSeen_fail userId ids st hfail]

/-- Witness for the amended C6 at a concrete failing bulk list. -/
theorem seen_abandons_rest_witness :
    handleMessageSeen stSeen 9 7 [(1, false), (2, true)] true
      = (((([(1, false), (2, true)] : List (Nat × Bool)).takeWhile
            fun p => p.2).map Prod.fst).foldl
           (fun s i => updateMessageReadBy s i 9) stSeen, []) :=
  seen_abandons_rest stSeen 9 7 [(1, false), (2, true)] true (by decide)

/-- `applyReadOps` applies a sequence of read-by updates
(message-id, user-id) to the store, as done by the `message:read` handler
and the loop of the `message:seen` handler. -/
def applyReadOps (st : Store) (ops : List (Nat × Nat)) : Store :=
  ops.foldl (fun s p => updateMessageReadBy s p.1 p.2) st

/-- A sequence of read-by updates acts row-wise: the resulting message
list is the map of the folded per-row update. -/
theorem applyReadOps_messages (ops : List (Nat × Nat)) (st : Store) :
    (applyReadOps st ops).messages
      = st.messages.map
          (fun m => ops.foldl (fun mm p => updOne p.1 p.2 mm) m) := by
  induction ops generalizing st with
  | nil => simp [applyReadOps]
  | cons p rest ih =>
      have h1 : applyReadOps st (p :: rest)
          = applyReadOps (updateMessageReadBy st p.1 p.2) rest := rfl
      rw [h1, ih]
      simp only [updateMessageReadBy, List.map_map]
      rfl

/-- Folding per-row read-by updates only grows the read-by set and
preserves freedom from duplicates. -/
theorem readBy_fold_mono (ops : List (Nat × Nat)) (m : Message) :
    m.readBy ⊆ (ops.foldl (fun mm p => updOne p.1 p.2 mm) m).readBy
    ∧ (m.readBy.Nodup
        → (ops.foldl (fun mm p => updOne p.1 p.2 mm) m).readBy.Nodup) := by
  induction ops generalizing m with
  | nil => exact ⟨fun a h => h, fun h => h⟩
  | cons p rest ih =>
      have hstep1 : m.readBy ⊆ (updOne p.1 p.2 m).readBy := by
        unfold updOne
        by_cases h : m.id = p.1 <;> simp [h, subset_addIfAbsent]
      have hstep2 : m.readBy.Nodup → (updOne p.1 p.2 m).readBy.Nodup := by
        unfold updOne
        by_cases h : m.id = p.1 <;> intro hn <;> simp [h]
        · exact nodup_addIfAbsent _ _ hn
        · exact hn
      obtain ⟨ih1, ih2⟩ := ih (updOne p.1 p.2 m)
      exact ⟨fun a ha => ih1 (hstep1 ha), fun hn => ih2 (hstep2 hn)⟩

/-- Relate a list to its map by the pointwise relation. -/
theorem forall2_map_self {α : Type} {R : α → α → Prop} (f : α → α)
    (h : ∀ a, R a (f a)) : ∀ l : List α, List.Forall₂ R l (l.map f)
  | [] => List.Forall₂.nil
  | a :: l => List.Forall₂.cons (h a) (forall2_map_self f h l)

/-- C7: under any sequence of mark-read / mark-seen read-by updates, each
persisted message read-by set only grows (the new set is a superset of the
old, row by row) and stays duplicate-free if it was; and one
`updateMessageReadBy` applied twice with the same message and user equals
applying it once (idempotence). -/
theorem readBy_monotone_nodup_idempotent (st : Store)
    (ops : List (Nat × Nat)) :
    List.Forall₂
      (fun m m2 => m.readBy ⊆ m2.readBy ∧ (m.readBy.Nodup → m2.readBy.Nodup))
      st.messages (applyReadOps st ops).messages
    ∧ ∀ i u, updateMessageReadBy (updateMessageReadBy st i u) i u
        = updateMessageReadBy st i u := by
  constructor
  · rw [applyReadOps_messages]
    exact forall2_map_self _ (fun m => readBy_fold_mono ops m) st.messages
  · intro i u
    have hmap : ∀ l : List Message,
        (l.map (updOne i u)).map (updOne i u) = l.map (updOne i u) := by
      intro l
      induction l with
      | nil => rfl
      | cons a l ih => simp [ih, updOne_idem]
    simp [updateMessageReadBy, hmap]

/-- Witness for C7 at a concrete store and operation sequence. -/
theorem readBy_monotone_nodup_idempotent_witness :
    List.Forall₂
      (fun m m2 => m.readBy ⊆ m2.readBy ∧ (m.readBy.Nodup → m2.readBy.Nodup))
      stSeen.messages (applyReadOps stSeen [(1, 9), (2, 9)]).messages
    ∧ ∀ i u, updateMessageReadBy (updateMessageReadBy stSeen i u) i u
        = updateMessageReadBy stSeen i u :=
  readBy_monotone_nodup_idempotent stSeen [(1, 9), (2, 9)]

/-- The store produced by the create branch of `getOrCreateDirectChat`:
one new non-group chat row and the two membership rows. -/
def createdDirectStore (st : Store) (user1Id user2Id : Nat) : Store :=
  { st with
    chats := st.chats ++ [⟨st.nextId, false, user1Id⟩],
    chatMembers := st.chatMembers ++ [(st.nextId, user1Id)]
      ++ [(st.nextId, user2Id)],
    nextId := st.nextId + 1 }

/-- The create branch of `getOrCreateDirectChat`, spelled out. -/
theorem getOrCreate_none (st : Store) (u1 u2 : Nat)
    (h : (chatIdsOf st u1).find? (isDirectWith st u2) = none) :
    getOrCreateDirectChat st u1 u2 = (createdDirectStore st u1 u2, st.nextId) := by
  simp [getOrCreateDirectChat, h, createChat, addChatMember,
    createdDirectStore]

/-- Every chat id a user belongs to is below the next fresh id. -/
theorem chatIdsOf_lt (st : Store) (u : Nat)
    (hwfMembers : ∀ p ∈ st.chatMembers, p.1 < st.nextId) :
    ∀ cid ∈ chatIdsOf st u, cid < st.nextId := by
  intro cid hcid
  simp only [chatIdsOf, List.mem_map, List.mem_filter] at hcid
  obtain ⟨p, ⟨hmem, _⟩, hp⟩ := hcid
  exact hp ▸ hwfMembers p hmem

/-- After the create branch, the requester belongs to the old chats plus
the new one. -/
theorem chatIdsOf_created (st : Store) (u1 u2 : Nat) (hne : u1 ≠ u2) :
    chatIdsOf (createdDirectStore st u1 u2) u1
      = chatIdsOf st u1 ++ [st.nextId] := by
  have h21 : (u2 == u1) = false := beq_eq_false_iff_ne.mpr (Ne.symm hne)
  simp [chatIdsOf, createdDirectStore, List.filter_append, h21]

/-- Membership rows of an old chat are unchanged by the create branch. -/
theorem membersOf_created_old (st : Store) (u1 u2 cid : Nat)
    (hlt : cid < st.nextId) :
    membersOf (createdDirectStore st u1 u2) cid = membersOf st cid := by
  have h : (st.nextId == cid) = false :=
    beq_eq_false_iff_ne.mpr (Nat.ne_of_gt hlt)
  simp [membersOf, createdDirectStore, List.filter_append, h]

/-- Lookup of an old chat row is unchanged by the create branch. -/
theorem findChat_created_old (st : Store) (u1 u2 cid : Nat)
    (hlt : cid < st.nextId) :
    findChat (createdDirectStore st u1 u2) cid = findChat st cid := by
  have h : (st.nextId == cid) = false :=
    beq_eq_false_iff_ne.mpr (Nat.ne_of_gt hlt)
  simp [findChat, createdDirectStore, List.find?_append, h]

/-- The direct-chat test on an old chat is unchanged by the create
branch. -/
theorem isDirectWith_created_old (st : Store) (u1 u2 cid : Nat)
    (hlt : cid < st.nextId) :
    isDirectWith (createdDirectStore st u1 u2) u2 cid
      = isDirectWith st u2 cid := by
  simp [isDirectWith, findChat_created_old st u1 u2 cid hlt,
    membersOf_created_old st u1 u2 cid hlt]

/-- Lookup of the new chat row after the create branch. -/
theorem findChat_created_new (st : Store) (u1 u2 : Nat)
    (hwfChats : ∀ c ∈ st.chats, c.id < st.nextId) :
    findChat (createdDirectStore st u1 u2) st.nextId
      = some ⟨st.nextId, false, u1⟩ := by
  have hnone : st.chats.find? (fun c => c.id == st.nextId) = none := by
    apply List.find?_eq_none.mpr
    intro c hc
    simp [Nat.ne_of_lt (hwfChats c hc)]
  simp [findChat, createdDirectStore, List.find?_append, hnone]

/-- Membership of the new chat row after the create branch is exactly the
requester and the target, in insertion order. -/
theorem membersOf_created_new (st : Store) (u1 u2 : Nat)
    (hwfMembers : ∀ p ∈ st.chatMembers, p.1 < st.nextId) :
    membersOf (createdDirectStore st u1 u2) st.nextId = [u1, u2] := by
  have hfilter : st.chatMembers.filter (fun p => p.1 == st.nextId) = [] := by
    rw [List.filter_eq_nil_iff]
    intro p hp
    simp [Nat.ne_of_lt (hwfMembers p hp)]
  simp [membersOf, createdDirectStore, List.filter_append, hfilter]

/-- The new chat row passes the direct-chat test for the target. -/
theorem isDirectWith_created_new (st : Store) (u1 u2 : Nat)
    (hwfChats : ∀ c ∈ st.chats, c.id < st.nextId)
    (hwfMembers : ∀ p ∈ st.chatMembers, p.1 < st.nextId) :
    isDirectWith (createdDirectStore st u1 u2) u2 st.nextId = true := by
  simp [isDirectWith, findChat_created_new st u1 u2 hwfChats,
    membersOf_created_new st u1 u2 hwfMembers]

/-- C8: for distinct users, repeating a direct `chat:create` request after
it has been served returns the same chat identifier and leaves the store
unchanged: the scan over the chats of the requester finds the non-group
chat whose membership set is exactly the pair and reuses it instead of
creating a duplicate.  The freshness hypotheses say stored ids are below
the next fresh id, which every store reachable by these operations
satisfies. -/
theorem direct_chat_idempotent (st : Store) (u1 u2 : Nat)
    (hwfChats : ∀ c ∈ st.chats, c.id < st.nextId)
    (hwfMembers : ∀ p ∈ st.chatMembers, p.1 < st.nextId)
    (hne : u1 ≠ u2) :
    getOrCreateDirectChat (getOrCreateDirectChat st u1 u2).1 u1 u2
      = getOrCreateDirectChat st u1 u2 := by
  cases hfind : (chatIdsOf st u1).find? (isDirectWith st u2) with
  | some cid => simp [getOrCreateDirectChat, hfind]
  | none =>
      rw [getOrCreate_none st u1 u2 hfind]
      have hfind2 : (chatIdsOf (createdDirectStore st u1 u2) u1).find?
          (isDirectWith (createdDirectStore st u1 u2) u2)
          = some st.nextId := by
        rw [chatIdsOf_created st u1 u2 hne, List.find?_append]
        have h1 : (chatIdsOf st u1).find?
            (isDirectWith (createdDirectStore st u1 u2) u2) = none := by
          apply List.find?_eq_none.mpr
          intro cid hcid
          have hlt : cid < st.nextId :=
            chatIdsOf_lt st u1 hwfMembers cid hcid
          rw [isDirectWith_created_old st u1 u2 cid hlt]
          exact List.find?_eq_none.mp hfind cid hcid
        rw [h1]
        simp [isDirectWith_created_new st u1 u2 hwfChats hwfMembers]
      simp [getOrCreateDirectChat, hfind2]

/-- Witness for C8 at the empty store and users 1, 2. -/
theorem direct_chat_idempotent_witness :
    getOrCreateDirectChat (getOrCreateDirectChat st0 1 2).1 1 2
      = getOrCreateDirectChat st0 1 2 :=
  direct_chat_idempotent st0 1 2 (by decide) (by decide) (by decide)

/-- Once the failure counter is at the limit, one service call of either
kind leaves the state unchanged. -/
theorem stepState_frozen (a o h : Bool) (st : ModState)
    (hc : maxFailures ≤ st.apiFailureCount) (c : ApiCall) :
    stepState a o h st c = st := by
  cases c with
  | moderate api => cases a <;> simp [stepState, moderateMessage, hc]
  | summary oc hcall =>
      cases a <;> simp [stepState, generateChatSummary, hc]

/-- C9: once the consecutive-failure counter has reached `maxFailures`
(5), any sequence of further service calls leaves the counter unchanged
(no call can reset it, because the external services are never contacted
again), and every `moderateMessage` call returns the allow result with
empty scores and `apiError = true` regardless of what the classifier would
answer — moderation stays disabled for the rest of the process lifetime. -/
theorem moderation_disabled_forever (a o h : Bool) (st : ModState)
    (hc : maxFailures ≤ st.apiFailureCount) (calls : List ApiCall) :
    calls.foldl (stepState a o h) st = st
    ∧ ∀ api, moderateMessage a o st api = (apiErrorResult, st) := by
  constructor
  · induction calls with
    | nil => rfl
    | cons c cs ih =>
        rw [List.foldl_cons, stepState_frozen a o h st hc c]
        exact ih
  · intro api
    cases a <;> simp [moderateMessage, hc]

/-- Witness for C9 at a counter of exactly 5 and one further call of each
kind. -/
theorem moderation_disabled_forever_witness :
    ([ApiCall.moderate none,
      ApiCall.summary none none].foldl (stepState true true true) ⟨5⟩ = ⟨5⟩)
    ∧ ∀ api, moderateMessage true true ⟨5⟩ api = (apiErrorResult, ⟨5⟩) :=
  moderation_disabled_forever true true true ⟨5⟩ (by decide)
    [ApiCall.moderate none, ApiCall.summary none none]

/-- C10: for a user who belongs to no chats, `searchMessages` returns the
empty result list for every query, and the message-store query is never
issued (the second component of the model records issuing it). -/
theorem search_no_chats (st : Store) (userId : Nat) (q : String)
    (h : chatIdsOf st userId = []) :
    searchMessages st userId q = ([], false) := by
  simp [searchMessages, h]

/-- Witness for C10: a store holding a message whose content matches, for
a user with no memberships. -/
theorem search_no_chats_witness :
    searchMessages
      ⟨[⟨0, false, 1⟩], [(0, 1)],
       [⟨2, 0, 1, "hello", false, false, [], []⟩], [], 3⟩ 5 "hello"
      = ([], false) :=
  search_no_chats
    ⟨[⟨0, false, 1⟩], [(0, 1)],
     [⟨2, 0, 1, "hello", false, false, [], []⟩], [], 3⟩ 5 "hello" rfl

end ChatApp
